import Mathlib

/-!
Verification development for the ShortsEditor media pipeline.

Shallow embedding of the acquisition/crop code:
* the stream-format catalog and the format filters of `ytdl.filterFormats`,
* the separate-stream selection in `downloadAndMergeStreams`,
* the per-attempt strategy choice of `downloadVideo` (retry loop),
* the progress handler installed on the download stream,
* the event trace and filesystem effect of `downloadAndMergeStreams`,
* the cache lookup `hasVideoFile`,
* the ffmpeg command built by `cropVideo` and the batch loop
  `cropMultipleHighlights`.
All definitions are translated from the TypeScript source; numbers are `Nat`
(byte counts, milliseconds, heights, bitrates) or `Rat` (seconds).
-/

namespace ShortsEditor

/-- One encoding option of a source, as exposed by the ytdl catalog.
`height` and `audioBitrate` are nullable in the source (`Option`); a JS
falsy check on them is modelled by `jsTruthy`. -/
structure StreamFormat where
  itag : Nat
  hasVideo : Bool
  hasAudio : Bool
  container : String
  height : Option Nat
  audioBitrate : Option Nat
  qualityLabel : String
deriving Repr, DecidableEq

/-- JS truthiness of a nullable number: `undefined`/`null` and `0` are falsy. -/
def jsTruthy : Option Nat → Bool
  | none => false
  | some n => n != 0

/-- `ytdl.filterFormats` with the videoandaudio filter. -/
def filterVideoAndAudio (formats : List StreamFormat) : List StreamFormat :=
  formats.filter (fun f => f.hasVideo && f.hasAudio)

/-- `ytdl.filterFormats` with the videoonly filter. -/
def filterVideoOnly (formats : List StreamFormat) : List StreamFormat :=
  formats.filter (fun f => f.hasVideo && !f.hasAudio)

/-- `ytdl.filterFormats` with the audioonly filter. -/
def filterAudioOnly (formats : List StreamFormat) : List StreamFormat :=
  formats.filter (fun f => !f.hasVideo && f.hasAudio)

/-- Numeric height used by the sort comparators (`parseInt` of a present
height; a missing height never reaches the comparator in the source because
the candidates are pre-filtered, `getD 0` covers the type). -/
def heightNum (f : StreamFormat) : Nat := f.height.getD 0

/-- Numeric audio bitrate used by the sort comparator. -/
def bitrateNum (f : StreamFormat) : Nat := f.audioBitrate.getD 0

/-- Head of a JS stable sort in descending `key` order: the first element of
the list attaining the maximal key (`.sort((a,b) => keyB - keyA)[0]`). -/
def pickMaxBy (key : StreamFormat → Nat) : List StreamFormat → Option StreamFormat
  | [] => none
  | f :: rest =>
    match pickMaxBy key rest with
    | none => some f
    | some g => if key f < key g then some g else some f

/-- `bestVideoFormat` of `downloadAndMergeStreams`: restrict the video-only
formats to container `mp4` with a truthy height, take the one of greatest
height, and fall back to the first video-only format
(`...[0] || videoOnlyFormats[0]`). -/
def bestVideoFormat (formats : List StreamFormat) : Option StreamFormat :=
  let videoOnlyFormats := filterVideoOnly formats
  let mp4Candidates :=
    videoOnlyFormats.filter (fun f => f.container == "mp4" && jsTruthy f.height)
  match pickMaxBy heightNum mp4Candidates with
  | some f => some f
  | none => videoOnlyFormats.head?

/-- `bestAudioFormat` of `downloadAndMergeStreams`: restrict the audio-only
formats to container `webm` or `m4a`, take the one of greatest bitrate, and
fall back to the first audio-only format. -/
def bestAudioFormat (formats : List StreamFormat) : Option StreamFormat :=
  let audioOnlyFormats := filterAudioOnly formats
  let preferredContainers :=
    audioOnlyFormats.filter (fun f => f.container == "webm" || f.container == "m4a")
  match pickMaxBy bitrateNum preferredContainers with
  | some f => some f
  | none => audioOnlyFormats.head?

/-- The high-resolution test of `downloadVideo`:
`f.height && parseInt(f.height) >= 720`. -/
def isHighRes (f : StreamFormat) : Bool :=
  match f.height with
  | some h => decide (720 ≤ h)
  | none => false

/-- The download strategy one attempt of `downloadVideo` commits to: either
the separate-stream path of `downloadAndMergeStreams` with the selected pair,
or a single ytdl stream with the given quality and filter options. -/
inductive Strategy where
  | separatePair (video audio : StreamFormat) : Strategy
  | combined (quality : String) (filterKind : String) : Strategy
deriving Repr, DecidableEq

instance {ε α : Type} [DecidableEq ε] [DecidableEq α] :
    DecidableEq (Except ε α) := fun a b =>
  match a, b with
  | Except.ok x, Except.ok y =>
    if h : x = y then isTrue (by rw [h])
    else isFalse (by intro hc; injection hc; contradiction)
  | Except.ok _, Except.error _ => isFalse (by intro hc; exact Except.noConfusion hc)
  | Except.error _, Except.ok _ => isFalse (by intro hc; exact Except.noConfusion hc)
  | Except.error e, Except.error f =>
    if h : e = f then isTrue (by rw [h])
    else isFalse (by intro hc; injection hc; contradiction)

/-- The rejection message of the format gate in `downloadVideo`. -/
def noSuitableFormatsMsg : String :=
  "No suitable video formats available. Video may be live stream or have restrictions."

/-- Error thrown in `downloadAndMergeStreams` when no video-only format exists. -/
def noVideoOnlyMsg : String := "No suitable video-only format found"

/-- Error thrown in `downloadAndMergeStreams` when no audio-only format exists. -/
def noAudioOnlyMsg : String := "No suitable audio-only format found"

/-- One attempt of the retry loop of `downloadVideo`: the format gate
(reject only if there is neither a combined nor a video-only format), then —
for quality `highest` with some ≥720p video-only format — the separate-stream
merge path with the `bestVideoFormat`/`bestAudioFormat` selection; otherwise
the single-stream options, downgraded to quality lowest with the combined
videoandaudio filter when `attempt > 1`. -/
def attemptStrategy (formats : List StreamFormat) (quality : String)
    (attempt : Nat) : Except String Strategy :=
  let combinedFormats := filterVideoAndAudio formats
  let videoFormats := filterVideoOnly formats
  if combinedFormats.isEmpty && videoFormats.isEmpty then
    Except.error noSuitableFormatsMsg
  else
    let baseFilter := if !combinedFormats.isEmpty then "videoandaudio" else "videoonly"
    let highResVideoFormats := videoFormats.filter isHighRes
    if quality == "highest" && !highResVideoFormats.isEmpty then
      match bestVideoFormat formats with
      | none => Except.error noVideoOnlyMsg
      | some v =>
        match bestAudioFormat formats with
        | none => Except.error noAudioOnlyMsg
        | some a => Except.ok (Strategy.separatePair v a)
    else if attempt > 1 then
      Except.ok (Strategy.combined "lowest" "videoandaudio")
    else
      Except.ok (Strategy.combined quality baseFilter)

/-- One `progress` event of the download stream, with its arrival wall time. -/
structure Chunk where
  nowMs : Nat
  downloadedBytes : Nat
  totalBytes : Nat
deriving Repr, DecidableEq

/-- The guard `timeSinceLastUpdate >= 2 || percentage >= 100` of the console
progress log (times in ms; `downloaded / total * 100 ≥ 100` iff
`total ≤ downloaded` for positive totals). -/
def logCondition (lastUpdateMs : Nat) (c : Chunk) : Bool :=
  decide (2000 ≤ c.nowMs - lastUpdateMs) || decide (c.totalBytes ≤ c.downloadedBytes)

/-- The progress-event handler of `downloadVideo`, run over a list of
chunks: `options.onProgress` is called for each chunk, and the console log is
emitted when `logCondition` holds, which also resets `lastUpdate`. Returns
(the chunks for which `onProgress` was invoked, the chunks that were logged),
in order. -/
def progressLoop (lastUpdateMs : Nat) : List Chunk → List Chunk × List Chunk
  | [] => ([], [])
  | c :: rest =>
    let fire := logCondition lastUpdateMs c
    let next := progressLoop (if fire then c.nowMs else lastUpdateMs) rest
    (c :: next.1, if fire then c :: next.2 else next.2)

/-- Throttle invariant on the logged chunks: each logged chunk is either
≥ 2000 ms after the previous logged chunk (initially after stream start) or a
100% chunk. -/
def logChain (lastUpdateMs : Nat) : List Chunk → Prop
  | [] => True
  | c :: rest =>
    (2000 ≤ c.nowMs - lastUpdateMs ∨ c.totalBytes ≤ c.downloadedBytes) ∧
      logChain c.nowMs rest

/-- Filesystem abstraction: the set of files present, as a list of paths. -/
structure FS where
  files : List String
deriving Repr, DecidableEq

/-- `fs.createWriteStream` / a completed ffmpeg output: the path exists. -/
def FS.create (fs : FS) (p : String) : FS :=
  if p ∈ fs.files then fs else ⟨p :: fs.files⟩

/-- `cleanupFile`: delete the file if it exists (no-op otherwise). -/
def FS.cleanup (fs : FS) (p : String) : FS :=
  ⟨fs.files.filter (fun q => q != p)⟩

/-- Outcome injected for one awaited step (a stream download or the merge). -/
inductive StepResult where
  | ok | transportError | timeout
deriving Repr, DecidableEq

/-- Observable events of one `downloadAndMergeStreams` run. -/
inductive MergeEvent where
  | videoDownloadStart | videoDownloadEnd
  | audioDownloadStart | audioDownloadEnd
  | mergeStart | mergeEnd
deriving Repr, DecidableEq

/-- `downloadStream`: writes the destination file; on a transport error or the
10-minute timeout it deletes the partial file and rejects. -/
def downloadStream (fs : FS) (outPath : String) (outcome : StepResult) :
    Except String Unit × FS :=
  let fs1 := fs.create outPath
  match outcome with
  | StepResult.ok => (Except.ok (), fs1)
  | StepResult.transportError =>
    (Except.error "Stream download error", fs1.cleanup outPath)
  | StepResult.timeout =>
    (Except.error "Stream download timeout", fs1.cleanup outPath)

/-- `mergeStreamsWithFFmpeg`: exit code 0 produces the output file; a nonzero
exit or the 15-minute timeout rejects, leaving any partial output in place
(the source performs no output cleanup here). -/
def mergeStreamsWithFFmpeg (fs : FS) (outputPath : String) (outcome : StepResult) :
    Except String Unit × FS :=
  let fs1 := fs.create outputPath
  match outcome with
  | StepResult.ok => (Except.ok (), fs1)
  | StepResult.transportError =>
    (Except.error "FFmpeg merge failed with nonzero code", fs1)
  | StepResult.timeout => (Except.error "FFmpeg merge timeout", fs1)

/-- Injected outcomes for the three awaited steps of one
`downloadAndMergeStreams` run. -/
structure MergeRun where
  videoOutcome : StepResult
  audioOutcome : StepResult
  mergeOutcome : StepResult
deriving Repr, DecidableEq

/-- The body of `downloadAndMergeStreams` after format selection: the `try`
block awaits the video-stream download, then the audio-stream download, then
the ffmpeg merge; the `finally` block deletes both temporary input files on
every exit path. Returns the result, the final filesystem, and the event
trace of the awaited steps in execution order. -/
def mergeStreamsRun (fs : FS)
    (tempVideoPath tempAudioPath outputPath : String) (run : MergeRun) :
    Except String String × FS × List MergeEvent :=
  let finallyCleanup := fun (g : FS) => (g.cleanup tempVideoPath).cleanup tempAudioPath
  match downloadStream fs tempVideoPath run.videoOutcome with
  | (Except.error e, fs1) =>
    (Except.error e, finallyCleanup fs1, [MergeEvent.videoDownloadStart])
  | (Except.ok _, fs1) =>
    match downloadStream fs1 tempAudioPath run.audioOutcome with
    | (Except.error e, fs2) =>
      (Except.error e, finallyCleanup fs2,
        [MergeEvent.videoDownloadStart, MergeEvent.videoDownloadEnd,
         MergeEvent.audioDownloadStart])
    | (Except.ok _, fs2) =>
      match mergeStreamsWithFFmpeg fs2 outputPath run.mergeOutcome with
      | (Except.error e, fs3) =>
        (Except.error e, finallyCleanup fs3,
          [MergeEvent.videoDownloadStart, MergeEvent.videoDownloadEnd,
           MergeEvent.audioDownloadStart, MergeEvent.audioDownloadEnd,
           MergeEvent.mergeStart])
      | (Except.ok _, fs3) =>
        (Except.ok outputPath, finallyCleanup fs3,
          [MergeEvent.videoDownloadStart, MergeEvent.videoDownloadEnd,
           MergeEvent.audioDownloadStart, MergeEvent.audioDownloadEnd,
           MergeEvent.mergeStart, MergeEvent.mergeEnd])

/-- The event sequence of a fully successful run; the trace of every run is a
prefix of it. -/
def fullMergeTrace : List MergeEvent :=
  [MergeEvent.videoDownloadStart, MergeEvent.videoDownloadEnd,
   MergeEvent.audioDownloadStart, MergeEvent.audioDownloadEnd,
   MergeEvent.mergeStart, MergeEvent.mergeEnd]

/-- JS `s.startsWith(p)`. -/
def jsStartsWith (s p : String) : Bool :=
  List.isPrefixOf p.toList s.toList

/-- A directory entry: file name plus modification time. -/
structure DirFile where
  name : String
  mtimeMs : Nat
deriving Repr, DecidableEq

/-- `maxFileAge` of the download service: 2 hours in ms. -/
def maxFileAgeMs : Nat := 1000 * 60 * 60 * 2

/-- `hasVideoFile`: scan the temp directory for the first file whose name
starts with the videoId; return its path if younger than `maxFileAge`,
otherwise evict it and report absent. Returns the lookup result and the
directory after a possible eviction. -/
def hasVideoFile (nowMs : Nat) (dir : List DirFile) (videoId : String) :
    Option String × List DirFile :=
  match dir.find? (fun f => jsStartsWith f.name videoId) with
  | none => (none, dir)
  | some f =>
    if nowMs - f.mtimeMs < maxFileAgeMs then (some f.name, dir)
    else (none, dir.filter (fun g => g.name != f.name))

/-- Quality tiers of `CropOptions`. -/
inductive Quality where
  | lossless | youtube | high | medium | low
deriving Repr, DecidableEq

/-- Resolution tiers of `CropOptions`. -/
inductive Resolution where
  | original | r1080p | r720p | r480p | r360p
deriving Repr, DecidableEq

/-- The `resolutionMap` of `cropVideo` (`original` has no entry). -/
def resolutionMap : Resolution → Option String
  | Resolution.r1080p => some "1920x1080"
  | Resolution.r720p => some "1280x720"
  | Resolution.r480p => some "854x480"
  | Resolution.r360p => some "640x360"
  | Resolution.original => none

/-- A highlight record from the upstream analysis service. -/
structure Highlight where
  id : String
  startSeconds : Rat
  endSeconds : Rat
  title : String
deriving Repr, DecidableEq

/-- The fluent-ffmpeg command assembled by `cropVideo`, as a record of the
settings applied to it. -/
structure CropCommand where
  input : String
  seekInputSec : Rat
  durationSec : Rat
  output : String
  videoCodec : String
  audioCodec : String
  audioChannels : Option Nat
  audioFrequency : Option Nat
  audioBitrate : Option String
  videoBitrate : Option String
  sizeArg : Option String
  extraOptions : List String
deriving Repr, DecidableEq

/-- The command-building portion of `cropVideo`: the quality switch, then the
resolution step (skipped for lossless and for `original`), then the
per-quality extra ffmpeg options. -/
def buildCropCommand (inputPath : String) (h : Highlight)
    (quality : Quality) (resolution : Resolution)
    (outputPath : String) : CropCommand :=
  let base : CropCommand := {
    input := inputPath
    seekInputSec := h.startSeconds
    durationSec := h.endSeconds - h.startSeconds
    output := outputPath
    videoCodec := ""
    audioCodec := ""
    audioChannels := none
    audioFrequency := none
    audioBitrate := none
    videoBitrate := none
    sizeArg := none
    extraOptions := [] }
  let afterQuality :=
    match quality with
    | Quality.lossless =>
      { base with
        videoCodec := "copy"
        audioCodec := "copy"
        extraOptions := base.extraOptions ++
          ["-avoid_negative_ts make_zero", "-movflags +faststart"] }
    | Quality.youtube =>
      let vb :=
        match resolution with
        | Resolution.r1080p => "8000k"
        | Resolution.r720p => "5000k"
        | _ => "3000k"
      { base with
        videoCodec := "libx264"
        audioCodec := "aac"
        audioChannels := some 2
        audioFrequency := some 48000
        audioBitrate := some "320k"
        videoBitrate := some vb }
    | Quality.high =>
      { base with
        videoCodec := "libx264"
        audioCodec := "aac"
        audioChannels := some 2
        audioFrequency := some 48000
        videoBitrate := some "4000k"
        audioBitrate := some "192k" }
    | Quality.medium =>
      { base with
        videoCodec := "libx264"
        audioCodec := "aac"
        audioChannels := some 2
        audioFrequency := some 44100
        videoBitrate := some "2000k"
        audioBitrate := some "128k" }
    | Quality.low =>
      { base with
        videoCodec := "libx264"
        audioCodec := "aac"
        audioChannels := some 2
        audioFrequency := some 44100
        videoBitrate := some "1000k"
        audioBitrate := some "96k" }
  let afterResolution :=
    if quality != Quality.lossless && resolution != Resolution.original then
      match resolutionMap resolution with
      | some s => { afterQuality with sizeArg := some s }
      | none => afterQuality
    else afterQuality
  match quality with
  | Quality.lossless => afterResolution
  | Quality.youtube =>
    { afterResolution with
      extraOptions := afterResolution.extraOptions ++
        ["-preset medium", "-profile:v high", "-level 4.0", "-pix_fmt yuv420p",
         "-movflags +faststart", "-avoid_negative_ts make_zero", "-g 30",
         "-keyint_min 30", "-sc_threshold 0", "-b_strategy 1", "-bf 3",
         "-refs 3"] }
  | _ =>
    { afterResolution with
      extraOptions := afterResolution.extraOptions ++
        ["-preset medium", "-profile:v high", "-pix_fmt yuv420p",
         "-movflags +faststart", "-avoid_negative_ts make_zero"] }

/-- Result record of one crop. -/
structure CropResult where
  outputPath : String
  fileSize : Nat
  durationSec : Rat
  format : String
deriving Repr, DecidableEq

/-- `cropMultipleHighlights`: a sequential loop over the highlights; the crop
outcome for each highlight is injected via `crop`; a failed crop logs the
error and continues with the remaining highlights. Returns the accumulated
successful results and the ids attempted, both in processing order. -/
def cropMultipleHighlights (crop : Highlight → Except String CropResult) :
    List Highlight → List CropResult × List String
  | [] => ([], [])
  | h :: rest =>
    let attempt := crop h
    let next := cropMultipleHighlights crop rest
    match attempt with
    | Except.ok r => (r :: next.1, h.id :: next.2)
    | Except.error _ => (next.1, h.id :: next.2)

/-- Sample 1080p mp4 video-only track. -/
def fmtVideoOnlyMp41080 : StreamFormat :=
  ⟨299, true, false, "mp4", some 1080, none, "1080p60"⟩

/-- Sample 1080p webm video-only track. -/
def fmtVideoOnlyWebm1080 : StreamFormat :=
  ⟨248, true, false, "webm", some 1080, none, "1080p"⟩

/-- Sample 720p mp4 video-only track. -/
def fmtVideoOnlyMp4720 : StreamFormat :=
  ⟨136, true, false, "mp4", some 720, none, "720p"⟩

/-- Sample 480p mp4 video-only track. -/
def fmtVideoOnlyMp4480 : StreamFormat :=
  ⟨135, true, false, "mp4", some 480, none, "480p"⟩

/-- Sample 128kbps webm audio-only track. -/
def fmtAudioWebm128 : StreamFormat :=
  ⟨250, false, true, "webm", none, some 128, ""⟩

/-- Sample 256kbps mp4 audio-only track. -/
def fmtAudioMp4256 : StreamFormat :=
  ⟨141, false, true, "mp4", none, some 256, ""⟩

/-- Sample 160kbps webm audio-only track. -/
def fmtAudioWebm160 : StreamFormat :=
  ⟨251, false, true, "webm", none, some 160, ""⟩

/-- Catalog whose best video-only track by height is webm, and whose best
audio-only track by bitrate is mp4. -/
def mixedContainerCatalog : List StreamFormat :=
  [fmtVideoOnlyWebm1080, fmtVideoOnlyMp4720, fmtAudioMp4256, fmtAudioWebm128]

/-- Catalog offering a high-resolution video-only track plus an audio-only
track, but no combined track. -/
def highResCatalog : List StreamFormat :=
  [fmtVideoOnlyMp41080, fmtAudioWebm160]

/-- Catalog with only a low-resolution video-only track: no combined track
and no audio-only track. -/
def videoOnlyCatalog : List StreamFormat := [fmtVideoOnlyMp4480]

/-- Sample highlight record. -/
def sampleHighlight : Highlight := ⟨"h1", 30, 45, "Intro"⟩

/-- Temp-directory entry created by the separate-stream path for source id
abc (naming scheme videoId_video_timestamp.mp4). -/
def tempStreamEntry : DirFile := ⟨"abc_video_1700000000.mp4", 1000⟩

/-- A fresh full-media cache entry for source id vid1. -/
def freshCacheEntry : DirFile := ⟨"vid1_123.mp4", 500⟩

/-- Progress chunk arriving 1000 ms after stream start, at 10%. -/
def chunkAt1000 : Chunk := ⟨1000, 10, 100⟩

/-- Progress chunk arriving 1500 ms after stream start, at 20%. -/
def chunkAt1500 : Chunk := ⟨1500, 20, 100⟩

end ShortsEditor

namespace ShortsEditor

theorem pickMaxBy_spec (key : StreamFormat → Nat) (l : List StreamFormat) :
    (pickMaxBy key l = none → l = []) ∧
    (∀ f, pickMaxBy key l = some f → f ∈ l ∧ ∀ g ∈ l, key g ≤ key f) := by
  induction l with
  | nil =>
    refine ⟨fun _ => rfl, fun f h => ?_⟩
    simp [pickMaxBy] at h
  | cons a rest ih =>
    constructor
    · intro h
      simp only [pickMaxBy] at h
      cases hrest : pickMaxBy key rest with
      | none => rw [hrest] at h; simp at h
      | some g => rw [hrest] at h; dsimp only at h; split at h <;> simp at h
    · intro f h
      simp only [pickMaxBy] at h
      cases hrest : pickMaxBy key rest with
      | none =>
        rw [hrest] at h
        have hnil : rest = [] := ih.1 hrest
        subst hnil
        simp only [Option.some.injEq] at h
        subst h
        simp
      | some gmax =>
        rw [hrest] at h
        dsimp only at h
        have hmax := ih.2 gmax hrest
        by_cases hlt : key a < key gmax
        · rw [if_pos hlt] at h
          simp only [Option.some.injEq] at h
          subst h
          refine ⟨List.mem_cons_of_mem a hmax.1, ?_⟩
          intro g hg
          rcases List.mem_cons.mp hg with hga | hgr
          · exact hga ▸ le_of_lt hlt
          · exact hmax.2 g hgr
        · rw [if_neg hlt] at h
          simp only [Option.some.injEq] at h
          subst h
          refine ⟨List.mem_cons_self a rest, ?_⟩
          intro g hg
          rcases List.mem_cons.mp hg with hga | hgr
          · exact le_of_eq (congrArg key hga)
          · exact le_trans (hmax.2 g hgr) (le_of_not_lt hlt)

theorem cleanup_pair_removes (g : FS) (tv ta : String) :
    tv ∉ ((g.cleanup tv).cleanup ta).files ∧
    ta ∉ ((g.cleanup tv).cleanup ta).files := by
  constructor <;> intro hmem <;> simp [FS.cleanup, List.mem_filter] at hmem

/-- C1: the claim says every retry attempt after a failure downgrades to the
simplified combined-stream strategy and never takes the separate-stream
path. Evaluated on the code: for a catalog offering a ≥720p video-only
format, a highest-quality request on attempt 2 still commits to the
separate-stream download-and-merge path, because the retry fallback branch
sits after the early return of the merge path and is unreachable there. -/
theorem attempt2_highest_still_separate :
    attemptStrategy highResCatalog "highest" 2 =
        Except.ok (Strategy.separatePair fmtVideoOnlyMp41080 fmtAudioWebm160) ∧
    attemptStrategy highResCatalog "highest" 2 ≠
        Except.ok (Strategy.combined "lowest" "videoandaudio") := by
  decide

/-- C2 counterexample: the mp4 and webm/m4a container restrictions of the
separate-stream selection are hard filters applied before maximisation, not
tie-breaks: with a 1080p webm video-only track present the code still picks
the 720p mp4 track, and with a 256kbps mp4 audio-only track present it still
picks the 128kbps webm track. -/
theorem container_filter_beats_quality :
    attemptStrategy mixedContainerCatalog "highest" 1 =
        Except.ok (Strategy.separatePair fmtVideoOnlyMp4720 fmtAudioWebm128) ∧
    fmtVideoOnlyWebm1080 ∈ filterVideoOnly mixedContainerCatalog ∧
    heightNum fmtVideoOnlyMp4720 < heightNum fmtVideoOnlyWebm1080 ∧
    fmtAudioMp4256 ∈ filterAudioOnly mixedContainerCatalog ∧
    bitrateNum fmtAudioWebm128 < bitrateNum fmtAudioMp4256 := by
  decide

/-- C2 (amended): the separate-stream selection maximises height only over
the mp4-container video-only formats with a truthy height, falling back to
the first video-only format when that pool is empty, and maximises bitrate
only over the webm/m4a audio-only formats, falling back to the first
audio-only format; within each restricted pool the chosen format is
maximal. -/
theorem bestFormat_pool_maximal (formats : List StreamFormat) :
    ((filterVideoOnly formats).filter
        (fun f => f.container == "mp4" && jsTruthy f.height) ≠ [] →
      ∃ v, bestVideoFormat formats = some v ∧
        v ∈ (filterVideoOnly formats).filter
          (fun f => f.container == "mp4" && jsTruthy f.height) ∧
        ∀ g ∈ (filterVideoOnly formats).filter
          (fun f => f.container == "mp4" && jsTruthy f.height),
          heightNum g ≤ heightNum v) ∧
    ((filterVideoOnly formats).filter
        (fun f => f.container == "mp4" && jsTruthy f.height) = [] →
      bestVideoFormat formats = (filterVideoOnly formats).head?) ∧
    ((filterAudioOnly formats).filter
        (fun f => f.container == "webm" || f.container == "m4a") ≠ [] →
      ∃ a, bestAudioFormat formats = some a ∧
        a ∈ (filterAudioOnly formats).filter
          (fun f => f.container == "webm" || f.container == "m4a") ∧
        ∀ g ∈ (filterAudioOnly formats).filter
          (fun f => f.container == "webm" || f.container == "m4a"),
          bitrateNum g ≤ bitrateNum a) ∧
    ((filterAudioOnly formats).filter
        (fun f => f.container == "webm" || f.container == "m4a") = [] →
      bestAudioFormat formats = (filterAudioOnly formats).head?) := by
  refine ⟨?_, ?_, ?_, ?_⟩
  · intro hne
    cases hp : pickMaxBy heightNum ((filterVideoOnly formats).filter
        (fun f => f.container == "mp4" && jsTruthy f.height)) with
    | none => exact absurd ((pickMaxBy_spec _ _).1 hp) hne
    | some v =>
      have hs := (pickMaxBy_spec _ _).2 v hp
      exact ⟨v, by simp [bestVideoFormat, hp], hs.1, hs.2⟩
  · intro he
    simp [bestVideoFormat, he, pickMaxBy]
  · intro hne
    cases hp : pickMaxBy bitrateNum ((filterAudioOnly formats).filter
        (fun f => f.container == "webm" || f.container == "m4a")) with
    | none => exact absurd ((pickMaxBy_spec _ _).1 hp) hne
    | some a =>
      have hs := (pickMaxBy_spec _ _).2 a hp
      exact ⟨a, by simp [bestAudioFormat, hp], hs.1, hs.2⟩
  · intro he
    simp [bestAudioFormat, he, pickMaxBy]

/-- C2 witness: the amended maximality statement applied to the
mixed-container catalog. -/
theorem bestFormat_pool_maximal_witness :
    ∃ v, bestVideoFormat mixedContainerCatalog = some v ∧
      v ∈ (filterVideoOnly mixedContainerCatalog).filter
        (fun f => f.container == "mp4" && jsTruthy f.height) ∧
      ∀ g ∈ (filterVideoOnly mixedContainerCatalog).filter
        (fun f => f.container == "mp4" && jsTruthy f.height),
        heightNum g ≤ heightNum v :=
  (bestFormat_pool_maximal mixedContainerCatalog).1 (by decide)

/-- C3 counterexample: on a fully successful run the recorded await trace is
the strictly sequential one, in which the audio-stream download starts only
after the video-stream download has ended — the two downloads never
overlap, refuting the claimed concurrency. -/
theorem merge_run_fully_sequential :
    (mergeStreamsRun ⟨[]⟩ "v.mp4" "a.webm" "out.mp4"
        ⟨StepResult.ok, StepResult.ok, StepResult.ok⟩).2.2 = fullMergeTrace ∧
    fullMergeTrace.indexOf MergeEvent.videoDownloadEnd <
      fullMergeTrace.indexOf MergeEvent.audioDownloadStart := by
  decide

/-- C3 (amended): within one separate-pair acquisition the two stream
downloads run sequentially: the trace of every run is a prefix of the
canonical sequence videoStart, videoEnd, audioStart, audioEnd, mergeStart,
mergeEnd, so the audio download begins only after the video download has
completed and the merge starts only after both downloads. -/
theorem merge_run_trace_canonical (fs : FS) (tv ta out : String) (run : MergeRun) :
    ∃ rest, (mergeStreamsRun fs tv ta out run).2.2 ++ rest = fullMergeTrace := by
  obtain ⟨v, a, m⟩ := run
  cases v <;> cases a <;> cases m <;> exact ⟨_, rfl⟩

/-- C4 counterexample: two progress chunks 500 ms apart, neither at 100%,
both invoke the onProgress callback, and neither is logged — the 2-second
throttle governs only the console log, not the callback. -/
theorem onProgress_not_throttled :
    (progressLoop 0 [chunkAt1000, chunkAt1500]).1 = [chunkAt1000, chunkAt1500] ∧
    (progressLoop 0 [chunkAt1000, chunkAt1500]).2 = [] ∧
    chunkAt1500.nowMs - chunkAt1000.nowMs < 2000 ∧
    chunkAt1500.downloadedBytes < chunkAt1500.totalBytes := by
  decide

/-- C4 (amended): the onProgress callback is invoked for every progress
chunk with no wall-time throttling; the at-most-every-2-seconds-or-100%
rule instead governs the console progress log, whose emissions satisfy the
throttle chain. -/
theorem progress_callback_every_chunk (lastUpdateMs : Nat) (chunks : List Chunk) :
    (progressLoop lastUpdateMs chunks).1 = chunks ∧
    logChain lastUpdateMs (progressLoop lastUpdateMs chunks).2 := by
  induction chunks generalizing lastUpdateMs with
  | nil => exact ⟨rfl, trivial⟩
  | cons c rest ih =>
    by_cases hf : logCondition lastUpdateMs c = true
    · have hcond : 2000 ≤ c.nowMs - lastUpdateMs ∨
          c.totalBytes ≤ c.downloadedBytes := by
        simpa [logCondition] using hf
      have ihc := ih c.nowMs
      refine ⟨?_, ?_⟩
      · simp [progressLoop, hf, ihc.1]
      · simp only [progressLoop, hf, if_true, logChain]
        exact ⟨hcond, ihc.2⟩
    · have hf2 : logCondition lastUpdateMs c = false := by
        cases hb : logCondition lastUpdateMs c with
        | true => exact absurd hb hf
        | false => rfl
      have ihc := ih lastUpdateMs
      refine ⟨?_, ?_⟩
      · simp [progressLoop, hf2, ihc.1]
      · simp only [progressLoop, hf2, if_false, Bool.false_eq_true]
        exact ihc.2

/-- C5 counterexample: a catalog with one 480p video-only format, no
combined format and no audio-only format does not fail with the
no-suitable-format error — the attempt proceeds with a video-only
single-stream download and can produce output. -/
theorem video_only_catalog_proceeds :
    attemptStrategy videoOnlyCatalog "lowest" 1 =
      Except.ok (Strategy.combined "lowest" "videoonly") := by
  decide

/-- C5 (amended): the no-suitable-format error is raised exactly when the
catalog has neither combined nor video-only formats; audio-only
availability is never consulted by the gate. -/
theorem noSuitableFormat_iff (formats : List StreamFormat) (quality : String)
    (attempt : Nat) :
    attemptStrategy formats quality attempt = Except.error noSuitableFormatsMsg ↔
      ((filterVideoAndAudio formats).isEmpty &&
        (filterVideoOnly formats).isEmpty) = true := by
  simp only [attemptStrategy]
  split
  next h => simp [h]
  next h =>
    refine iff_of_false ?_ h
    intro hcontra
    split at hcontra
    · cases hbv : bestVideoFormat formats with
      | none =>
        rw [hbv] at hcontra
        injection hcontra with hmsg
        exact absurd hmsg (by decide)
      | some v =>
        rw [hbv] at hcontra
        cases hba : bestAudioFormat formats with
        | none =>
          rw [hba] at hcontra
          injection hcontra with hmsg
          exact absurd hmsg (by decide)
        | some a =>
          rw [hba] at hcontra
          exact Except.noConfusion hcontra
    · split at hcontra <;> exact Except.noConfusion hcontra

/-- C6: both temporary input files are absent from the filesystem when the
separate-stream download-and-merge operation returns, on every path:
success, video-download failure, audio-download failure, merge failure, and
every timeout combination. -/
theorem temp_files_always_cleaned (fs : FS) (tv ta out : String) (run : MergeRun) :
    tv ∉ ((mergeStreamsRun fs tv ta out run).2.1).files ∧
    ta ∉ ((mergeStreamsRun fs tv ta out run).2.1).files := by
  obtain ⟨v, a, m⟩ := run
  cases v <;> cases a <;> cases m <;> exact cleanup_pair_removes _ tv ta

/-- C7: the re-encode tiers build exactly the table parameters — youtube
(platform-optimized) 8000k video at 1080p and 5000k at 720p with 320k/48kHz
audio, high 4000k with 192k/48kHz, medium 2000k with 128k/44.1kHz, low
1000k with 96k/44.1kHz — and for every re-encode tier the size argument is
the mapped resolution, absent exactly for original. -/
theorem reencode_tier_table (inp out : String) (h : Highlight) :
    (buildCropCommand inp h Quality.youtube Resolution.r1080p out).videoBitrate
        = some "8000k" ∧
    (buildCropCommand inp h Quality.youtube Resolution.r720p out).videoBitrate
        = some "5000k" ∧
    (∀ res, (buildCropCommand inp h Quality.youtube res out).audioBitrate
          = some "320k" ∧
        (buildCropCommand inp h Quality.youtube res out).audioFrequency
          = some 48000) ∧
    (∀ res, (buildCropCommand inp h Quality.high res out).videoBitrate
          = some "4000k" ∧
        (buildCropCommand inp h Quality.high res out).audioBitrate
          = some "192k" ∧
        (buildCropCommand inp h Quality.high res out).audioFrequency
          = some 48000) ∧
    (∀ res, (buildCropCommand inp h Quality.medium res out).videoBitrate
          = some "2000k" ∧
        (buildCropCommand inp h Quality.medium res out).audioBitrate
          = some "128k" ∧
        (buildCropCommand inp h Quality.medium res out).audioFrequency
          = some 44100) ∧
    (∀ res, (buildCropCommand inp h Quality.low res out).videoBitrate
          = some "1000k" ∧
        (buildCropCommand inp h Quality.low res out).audioBitrate
          = some "96k" ∧
        (buildCropCommand inp h Quality.low res out).audioFrequency
          = some 44100) ∧
    (∀ q res, q ≠ Quality.lossless →
      (buildCropCommand inp h q res out).sizeArg = resolutionMap res) := by
  refine ⟨rfl, rfl, ?_, ?_, ?_, ?_, ?_⟩
  · intro res; cases res <;> exact ⟨rfl, rfl⟩
  · intro res; cases res <;> exact ⟨rfl, rfl, rfl⟩
  · intro res; cases res <;> exact ⟨rfl, rfl, rfl⟩
  · intro res; cases res <;> exact ⟨rfl, rfl, rfl⟩
  · intro q res hq
    cases q
    case lossless => exact absurd rfl hq
    all_goals cases res <;> rfl

/-- C7 witness: the tier table applied at a concrete re-encode request. -/
theorem reencode_tier_table_witness :
    (buildCropCommand "src.mp4" sampleHighlight Quality.medium
        Resolution.r480p "out.mp4").sizeArg = resolutionMap Resolution.r480p :=
  (reencode_tier_table "src.mp4" "out.mp4" sampleHighlight).2.2.2.2.2.2
    Quality.medium Resolution.r480p (by decide)

/-- C8: a lossless crop stream-copies both the video and the audio stream,
applies the avoid_negative_ts timestamp correction, and never applies
resolution scaling or re-encode bitrates, for every requested resolution. -/
theorem lossless_crop_stream_copy (inp out : String) (h : Highlight)
    (res : Resolution) :
    (buildCropCommand inp h Quality.lossless res out).videoCodec = "copy" ∧
    (buildCropCommand inp h Quality.lossless res out).audioCodec = "copy" ∧
    "-avoid_negative_ts make_zero" ∈
      (buildCropCommand inp h Quality.lossless res out).extraOptions ∧
    (buildCropCommand inp h Quality.lossless res out).sizeArg = none ∧
    (buildCropCommand inp h Quality.lossless res out).videoBitrate = none ∧
    (buildCropCommand inp h Quality.lossless res out).audioBitrate = none := by
  cases res <;> exact ⟨rfl, rfl, List.mem_cons_self _ _, rfl, rfl, rfl⟩

/-- C9 counterexample: the source-cache lookup matches by file-name prefix,
so looking up source id abc returns the temporary single-stream artifact
abc_video_1700000000.mp4 (the naming scheme of the separate-stream path),
and the two distinct keys abc and abc_video resolve to the same file. -/
theorem cache_lookup_collides :
    (hasVideoFile 2000 [tempStreamEntry] "abc").1
        = some "abc_video_1700000000.mp4" ∧
    (hasVideoFile 2000 [tempStreamEntry] "abc_video").1
        = some "abc_video_1700000000.mp4" ∧
    "abc" ≠ "abc_video" := by
  decide

/-- C9 (amended): the lookup returns the name of the first fresh directory
entry whose file name has the looked-up videoId as a string prefix; it does
not distinguish the full-media artifact from any other file sharing that
prefix, such as a temporary single-stream file of the same source. -/
theorem hasVideoFile_prefix_only (nowMs : Nat) (dir : List DirFile)
    (videoId p : String) (h : (hasVideoFile nowMs dir videoId).1 = some p) :
    ∃ f ∈ dir, f.name = p ∧ jsStartsWith f.name videoId = true ∧
      nowMs - f.mtimeMs < maxFileAgeMs := by
  unfold hasVideoFile at h
  cases hf : dir.find? (fun f => jsStartsWith f.name videoId) with
  | none => rw [hf] at h; simp at h
  | some f =>
    rw [hf] at h
    dsimp only at h
    by_cases hage : nowMs - f.mtimeMs < maxFileAgeMs
    · rw [if_pos hage] at h
      simp only [Option.some.injEq] at h
      have hpf : (fun g => jsStartsWith g.name videoId) f = true :=
        List.find?_some (p := fun g => jsStartsWith g.name videoId) (a := f) hf
      exact ⟨f, List.mem_of_find?_eq_some hf, h, hpf, hage⟩
    · rw [if_neg hage] at h
      simp at h

/-- C9 amended-theorem witness: the characterisation applied to a fresh
full-media cache entry. -/
theorem hasVideoFile_prefix_only_witness :
    ∃ f ∈ [freshCacheEntry], f.name = "vid1_123.mp4" ∧
      jsStartsWith f.name "vid1" = true ∧ 2000 - f.mtimeMs < maxFileAgeMs :=
  hasVideoFile_prefix_only 2000 [freshCacheEntry] "vid1" "vid1_123.mp4"
    (by decide)

/-- C10: the batch crop visits the highlights exactly in list order, a
failing crop does not abort the batch, and the returned list is exactly the
successful crop results in the order their highlights appeared. -/
theorem crop_batch_sequential (crop : Highlight → Except String CropResult)
    (hs : List Highlight) :
    (cropMultipleHighlights crop hs).1 =
      hs.filterMap (fun h => (crop h).toOption) ∧
    (cropMultipleHighlights crop hs).2 = hs.map (fun h => h.id) := by
  induction hs with
  | nil => exact ⟨rfl, rfl⟩
  | cons h rest ih =>
    simp only [cropMultipleHighlights, List.filterMap_cons, List.map_cons]
    cases hc : crop h with
    | ok r => simp [hc, Except.toOption, ih.1, ih.2]
    | error e => simp [hc, Except.toOption, ih.1, ih.2]

end ShortsEditor
